import Mathlib

/-!
The process entry point `cmd/dvara/main.go` of dvara and the proxy core it configures.

The first part embeds `Main` of `cmd/dvara/main.go`: the flags it registers, the
`dvara.ReplicaSet` literal it builds from them, and the sequence of calls it makes on the
injection graph, the metrics registry, `startstop` and `os/signal`.  The calls into other
packages are effects; `Main` is embedded as a function from a `World` (what those calls
answer) to the trace of calls it makes together with its outcome.
-/

namespace Dvara

/-! ## Go `time.Duration` -/

/-- Go `time.Duration`: a signed count of nanoseconds. -/
abbrev Duration := Int

def Nanosecond : Duration := 1
def Microsecond : Duration := 1000 * Nanosecond
def Millisecond : Duration := 1000 * Microsecond
def Second : Duration := 1000 * Millisecond
def Minute : Duration := 60 * Second

/-! ## Flags (main.go lines 28-42) -/

/-- The values behind the pointers returned by the `flag.*` calls of `Main`, after
`flag.Parse()`.  `flag.Uint` yields an unsigned, `flag.Int` a signed integer and
`flag.Duration` a `time.Duration`. -/
structure Flags where
  messageTimeout : Duration
  clientIdleTimeout : Duration
  getLastErrorTimeout : Duration
  maxConnections : Nat
  portStart : Int
  portEnd : Int
  addrs : String
  host : String
  maxPerClientConnections : Nat
  minIdleConnections : Nat
  serverIdleTimeout : Duration
  serverClosePoolSize : Nat
  debug : Bool
deriving DecidableEq, Repr

/-- The default of every flag, the second argument of its `flag.*` call. -/
def defaultFlags : Flags where
  messageTimeout := 2 * Minute
  clientIdleTimeout := 60 * Minute
  getLastErrorTimeout := Minute
  maxConnections := 1024
  portStart := 6000
  portEnd := 6010
  addrs := "localhost:27017"
  host := "127.0.0.1"
  maxPerClientConnections := 1024
  minIdleConnections := 64
  serverIdleTimeout := 60 * Minute
  serverClosePoolSize := 1024
  debug := false

/-- One well-formed `-name=value` argument of the command line, named after the flag it sets
(the first argument of the `flag.*` call), with its value already converted by the `flag`
package. -/
inductive FlagSetting where
  | message_timeout (d : Duration)
  | client_idle_timeout (d : Duration)
  | get_last_error_timeout (d : Duration)
  | max_connections (n : Nat)
  | port_start (n : Int)
  | port_end (n : Int)
  | addrs (s : String)
  | host (s : String)
  | max_per_client_connections (n : Nat)
  | min_idle_connection (n : Nat)
  | server_idle_timeout (d : Duration)
  | server_close_poolsize (n : Nat)
  | debug (b : Bool)
deriving DecidableEq, Repr

/-- The effect of one command-line setting on the flag variables. -/
def Flags.set (f : Flags) : FlagSetting → Flags
  | .message_timeout d => { f with messageTimeout := d }
  | .client_idle_timeout d => { f with clientIdleTimeout := d }
  | .get_last_error_timeout d => { f with getLastErrorTimeout := d }
  | .max_connections n => { f with maxConnections := n }
  | .port_start n => { f with portStart := n }
  | .port_end n => { f with portEnd := n }
  | .addrs s => { f with addrs := s }
  | .host s => { f with host := s }
  | .max_per_client_connections n => { f with maxPerClientConnections := n }
  | .min_idle_connection n => { f with minIdleConnections := n }
  | .server_idle_timeout d => { f with serverIdleTimeout := d }
  | .server_close_poolsize n => { f with serverClosePoolSize := n }
  | .debug b => { f with debug := b }

/-- The call `flag.Parse()`: every flag starts at its default and the settings of the command line
are applied from left to right. -/
def flagParse (args : List FlagSetting) : Flags :=
  args.foldl Flags.set defaultFlags

/-! ## The configuration literal (main.go lines 44-57) -/

/-- The fields of `dvara.ReplicaSet` that `Main` sets. -/
structure ReplicaSet where
  Addrs : String
  HostListen : String
  PortStart : Int
  PortEnd : Int
  MaxConnections : Nat
  MinIdleConnections : Nat
  ServerIdleTimeout : Duration
  ServerClosePoolSize : Nat
  ClientIdleTimeout : Duration
  MaxPerClientConnections : Nat
  GetLastErrorTimeout : Duration
  MessageTimeout : Duration
deriving DecidableEq, Repr

/-- The composite literal `dvara.ReplicaSet{...}` of `Main`. -/
def mkReplicaSet (f : Flags) : ReplicaSet where
  Addrs := f.addrs
  HostListen := f.host
  PortStart := f.portStart
  PortEnd := f.portEnd
  MaxConnections := f.maxConnections
  MinIdleConnections := f.minIdleConnections
  ServerIdleTimeout := f.serverIdleTimeout
  ServerClosePoolSize := f.serverClosePoolSize
  ClientIdleTimeout := f.clientIdleTimeout
  MaxPerClientConnections := f.maxPerClientConnections
  GetLastErrorTimeout := f.getLastErrorTimeout
  MessageTimeout := f.messageTimeout

/-! ## The effects of `Main` (main.go lines 59-92) -/

/-- A non-nil Go `error`. -/
structure Err where
  msg : String
deriving DecidableEq, Repr

/-- An `*inject.Object` of the populated graph: its identity and whether its `Value`
implements the `registerMetrics` interface (the `ok` of the type assertion on line 78). -/
structure Object where
  id : Nat
  isRegisterMetrics : Bool
deriving DecidableEq, Repr

/-- An `os.Signal` that can be sent to the process. -/
inductive Signal where
  | SIGHUP
  | SIGINT
  | SIGQUIT
  | SIGABRT
  | SIGKILL
  | SIGUSR1
  | SIGUSR2
  | SIGTERM
  | SIGCHLD
  | SIGURG
  | SIGWINCH
deriving DecidableEq, Repr

/-- The default behaviour of a Go program on a signal it has not asked for with
`signal.Notify` (package `os/signal`): SIGHUP, SIGINT and SIGTERM make the program exit,
SIGQUIT and SIGABRT make it exit with a stack dump, SIGKILL cannot be caught; the other
signals are caught and no action is taken.  The result says whether the process ends. -/
def Signal.endsProcess : Signal → Bool
  | Signal.SIGHUP => true
  | Signal.SIGINT => true
  | Signal.SIGQUIT => true
  | Signal.SIGABRT => true
  | Signal.SIGKILL => true
  | Signal.SIGTERM => true
  | Signal.SIGUSR1 => false
  | Signal.SIGUSR2 => false
  | Signal.SIGCHLD => false
  | Signal.SIGURG => false
  | Signal.SIGWINCH => false

/-- What the calls of `Main` into other packages answer. -/
structure World where
  /-- the settings on the command line -/
  args : List FlagSetting
  /-- the result of `graph.Provide(...)` -/
  provideErr : Option Err
  /-- the result of `graph.Populate()` -/
  populateErr : Option Err
  /-- the result of `graph.Objects()` -/
  objects : List Object
  /-- the registry returned by `gangliamr.NewTestRegistry()` -/
  registry : Nat
  /-- the result of `startstop.Start(objects, &log)` -/
  startErr : Option Err
  /-- the signals sent to the process while `Main` waits on the signal channel, in order of
  arrival; the wait is over with the first of them that is relayed to the channel or ends
  the process, and what stands after it plays no part -/
  signals : List Signal

/-- A call that `Main` makes, with the arguments that matter. -/
inductive Event where
  | flagParse
  | graphProvide (rs : ReplicaSet)
  | graphPopulate
  | graphObjects
  | newTestRegistry (r : Nat)
  | registerMetrics (o : Object) (r : Nat)
  | start (objs : List Object)
  | signalNotify (sigs : List Signal)
  | chanRecv (s : Signal)
  | signalStop
  | stop (objs : List Object)
deriving DecidableEq, Repr

/-- How a run of `Main` ends: it returns an `error` (`none` is `nil`), or it stays blocked
on the receive from the signal channel, or the process is ended by a signal while `Main`
waits there, in which case `Main` does not return and no deferred call runs. -/
inductive Outcome where
  | returned (err : Option Err)
  | blocked
  | killed (s : Signal)
deriving DecidableEq, Repr

/-- How the wait on the signal channel ends: a signal is received from the channel, the
process is ended by a signal, or the wait goes on. -/
inductive WaitResult where
  | received (s : Signal)
  | killed (s : Signal)
  | blocked
deriving DecidableEq, Repr

/-- The loop of lines 77-81: `RegisterMetrics(gregistry)` on every object whose value passes
the type assertion. -/
def registerAll (gregistry : Nat) : List Object → List Event
  | [] => []
  | o :: rest =>
    if o.isRegisterMetrics then
      Event.registerMetrics o gregistry :: registerAll gregistry rest
    else
      registerAll gregistry rest

/-- The receive `<-ch` after `signal.Notify(ch, sigs...)`, over the signals sent to the
process in order of arrival.  A signal that is one of `sigs` is relayed to `ch` and
received.  A signal that was not asked for keeps its default behaviour: it ends the process
if that is its default, and otherwise nothing happens and the wait goes on. -/
def chanReceive (sigs : List Signal) : List Signal → WaitResult
  | [] => WaitResult.blocked
  | s :: rest =>
    if s ∈ sigs then WaitResult.received s
    else if s.endsProcess then WaitResult.killed s
    else chanReceive sigs rest

/-- The function `Main` of main.go: the calls it makes, in order, and how it ends.  The deferred
`startstop.Stop` runs when the function returns after the `defer` statement was reached. -/
def Main (w : World) : List Event × Outcome :=
  let replicaSet := mkReplicaSet (flagParse w.args)
  let t0 := [Event.flagParse, Event.graphProvide replicaSet]
  match w.provideErr with
  | some err => (t0, Outcome.returned (some err))
  | none =>
    let t1 := t0 ++ [Event.graphPopulate]
    match w.populateErr with
    | some err => (t1, Outcome.returned (some err))
    | none =>
      let objects := w.objects
      let gregistry := w.registry
      let t2 := t1 ++ [Event.graphObjects, Event.newTestRegistry gregistry]
        ++ registerAll gregistry objects ++ [Event.start objects]
      match w.startErr with
      | some err => (t2, Outcome.returned (some err))
      | none =>
        let t3 := t2 ++ [Event.signalNotify [Signal.SIGTERM, Signal.SIGINT]]
        match chanReceive [Signal.SIGTERM, Signal.SIGINT] w.signals with
        | WaitResult.blocked => (t3, Outcome.blocked)
        | WaitResult.killed s => (t3, Outcome.killed s)
        | WaitResult.received s =>
          (t3 ++ [Event.chanRecv s, Event.signalStop, Event.stop objects],
            Outcome.returned none)

/-- The function `main`: when `Main` returns an error it is printed on standard error and
the process exits with status 1; the result is the lines printed and the exit status, or
`none` when `Main` does not return. -/
def main (w : World) : Option (List String × Nat) :=
  match (Main w).2 with
  | Outcome.returned (some err) => some ([err.msg], 1)
  | Outcome.returned none => some ([], 0)
  | Outcome.blocked => none
  | Outcome.killed _ => none

/-! ## The port-range invariant of the configuration (spec section 3) -/

/-- The number of comma-separated entries of the `addrs` flag. -/
def seedCount (addrs : String) : Nat :=
  (addrs.toList.filter (fun c => c == ',')).length + 1

/-- The port-range invariant: `PortStart ≤ PortEnd` and the range `[PortStart, PortEnd]`
holds at least one port per seed address. -/
def portRangeInvariant (rs : ReplicaSet) : Prop :=
  rs.PortStart ≤ rs.PortEnd ∧ (seedCount rs.Addrs : Int) ≤ rs.PortEnd - rs.PortStart + 1

instance (rs : ReplicaSet) : Decidable (portRangeInvariant rs) := by
  unfold portRangeInvariant; infer_instance

/-! ## The proxy core

The package `dvara` itself (pool, framer, session) is not part of the sources at hand; only
the entry point that configures it is.  The definitions of this part are written from the
specification of the core. -/

/-- Modelled from the spec: the error taxonomy of section 7; the core's error values are not
in the sources. -/
inductive ProxyError where
  | DialError
  | PoolExhausted
  | AcquireTimeout
  | MessageTimeout
  | ProtocolError
  | ClientIdleTimeout
  | ServerIdleTimeout
  | PerClientLimitExceeded
deriving DecidableEq, Repr

/-- A point in time, in nanoseconds. -/
abbrev Time := Int

/-! ### Connection pool (spec section 4.1) -/

/-- Modelled from the spec: `PooledServerConn` of section 3, an upstream connection with its
last-used time; the pool's source is missing. -/
structure PooledServerConn where
  id : Nat
  lastUsed : Time
deriving DecidableEq, Repr

/-- Modelled from the spec: the sizing of one member's pool, taken from the configuration
(section 3), with the "desired idle target" of Release, which the spec leaves open, as a
field of its own; the pool's source is missing. -/
structure PoolConfig where
  MaxConnections : Nat
  MinIdleConnections : Nat
  ServerIdleTimeout : Duration
  idleTarget : Nat
deriving DecidableEq, Repr

/-- Modelled from the spec: the state of a Connection Pool, whose source is missing.  The idle
list has the most recently released connection first; `inUse`, `closing` and `closed` hold
the connections in the other three states of section 3. -/
structure Pool where
  idle : List PooledServerConn
  inUse : List Nat
  closing : List Nat
  closed : List Nat
  nextId : Nat
deriving DecidableEq, Repr

/-- Modelled from the spec: the pool before any connection was dialed; the pool's source is
missing. -/
def Pool.empty : Pool := ⟨[], [], [], [], 0⟩

/-- Modelled from the spec: the "total connections" that Acquire compares with
MaxConnections, the idle and the in-use connections; the pool's source is missing. -/
def Pool.total (p : Pool) : Nat := p.idle.length + p.inUse.length

/-- Modelled from the spec: the answer of `Acquire` (section 4.1); the pool's source is
missing. -/
inductive AcquireResult where
  | conn (id : Nat)
  | failed (e : ProxyError)
deriving DecidableEq, Repr

/-- Modelled from the spec: dialing a new upstream connection, which succeeds or fails with
DialError as the network decides (`dialOk`); the pool's source is missing. -/
def Pool.dial (p : Pool) (dialOk : Bool) : Pool × AcquireResult :=
  if dialOk then
    ({ p with inUse := p.nextId :: p.inUse, nextId := p.nextId + 1 }, AcquireResult.conn p.nextId)
  else
    (p, AcquireResult.failed ProxyError.DialError)

/-- Modelled from the spec: `Acquire` of section 4.1, whose source is missing.  "Acquire
pops the most-recently-released idle connection; if its idle age exceeds ServerIdleTimeout
it is discarded and a fresh upstream connection is dialed instead.  If the idle list is
empty and total connections < MaxConnections, dial a new connection.  If at capacity,
Acquire blocks until a Release or the given deadline, after which it reports
Exhausted/Timeout" (a wait that ends at the deadline leaves the pool as it was). -/
def Pool.acquire (cfg : PoolConfig) (p : Pool) (now : Time) (dialOk : Bool) :
    Pool × AcquireResult :=
  match p.idle with
  | c :: rest =>
    if now - c.lastUsed > cfg.ServerIdleTimeout then
      Pool.dial { p with idle := rest, closing := p.closing ++ [c.id] } dialOk
    else
      ({ p with idle := rest, inUse := c.id :: p.inUse }, AcquireResult.conn c.id)
  | [] =>
    if p.total < cfg.MaxConnections then Pool.dial p dialOk
    else (p, AcquireResult.failed ProxyError.AcquireTimeout)

/-- Modelled from the spec: `Release` of section 4.1, whose source is missing.  "If healthy
and the idle list is below the desired idle target, return the connection to the idle list
with refreshed last-used time; otherwise enqueue it for asynchronous close."  Only a
connection that is borrowed can be released; for any other the pool is left as it is. -/
def Pool.release (cfg : PoolConfig) (p : Pool) (conn : Nat) (healthy : Bool) (now : Time) :
    Pool :=
  if conn ∈ p.inUse then
    if healthy ∧ p.idle.length < cfg.idleTarget then
      { p with idle := ⟨conn, now⟩ :: p.idle, inUse := p.inUse.erase conn }
    else
      { p with inUse := p.inUse.erase conn, closing := p.closing ++ [conn] }
  else p

/-- Modelled from the spec: one pass of the idle reaper over the idle connections, oldest
first, with `budget` the number it may still evict; the result is the connections kept and
the connections evicted.  The reaper's source is missing. -/
def reapOldest (cfg : PoolConfig) (now : Time) :
    Nat → List PooledServerConn → List PooledServerConn × List PooledServerConn
  | 0, cs => (cs, [])
  | _ + 1, [] => ([], [])
  | budget + 1, c :: cs =>
    if now - c.lastUsed > cfg.ServerIdleTimeout then
      ((reapOldest cfg now budget cs).1, c :: (reapOldest cfg now budget cs).2)
    else
      (c :: (reapOldest cfg now (budget + 1) cs).1, (reapOldest cfg now (budget + 1) cs).2)

/-- Modelled from the spec: the idle reaper of section 4.1, whose source is missing.  It
"evicts idle connections older than ServerIdleTimeout, never dropping idle count below
MinIdleConnections"; the evicted connections are queued for close. -/
def Pool.reap (cfg : PoolConfig) (p : Pool) (now : Time) : Pool :=
  let r := reapOldest cfg now (p.idle.length - cfg.MinIdleConnections) p.idle.reverse
  { p with idle := r.1.reverse, closing := p.closing ++ r.2.map (fun c => c.id) }

/-- Modelled from the spec: one close worker of section 4.1 taking a connection from the
close queue and closing it; the workers' source is missing. -/
def Pool.closeOne (p : Pool) : Pool :=
  match p.closing with
  | [] => p
  | c :: rest => { p with closing := rest, closed := c :: p.closed }

/-- Modelled from the spec: the steps a pool takes (section 4.1), with what the caller and
the network decide; the pool's source is missing. -/
inductive PoolStep where
  | acquire (now : Time) (dialOk : Bool)
  | release (conn : Nat) (healthy : Bool) (now : Time)
  | reap (now : Time)
  | closeWorker
deriving DecidableEq, Repr

/-- Modelled from the spec: the pool after one step; the pool's source is missing. -/
def Pool.step (cfg : PoolConfig) (p : Pool) : PoolStep → Pool
  | PoolStep.acquire now dialOk => (Pool.acquire cfg p now dialOk).1
  | PoolStep.release conn healthy now => Pool.release cfg p conn healthy now
  | PoolStep.reap now => Pool.reap cfg p now
  | PoolStep.closeWorker => Pool.closeOne p

/-- Modelled from the spec: the pool after a sequence of steps from the empty pool; the
pool's source is missing. -/
def Pool.run (cfg : PoolConfig) (steps : List PoolStep) : Pool :=
  steps.foldl (Pool.step cfg) Pool.empty

/-! ### Wire protocol framer (spec section 4.2) -/

/-- A byte of a connection's stream. -/
abbrev Byte := Nat

/-- Modelled from the spec: the header of a `Frame` (section 3): length prefix, request id,
response-to id and opcode; the framer's source is missing. -/
structure FrameHeader where
  length : Int
  requestId : Int
  responseTo : Int
  opCode : Int
deriving DecidableEq, Repr

/-- Modelled from the spec: what the framer is configured with: the size of a header in
bytes, the configured maximum of a frame's length, and how the bytes of a header are read
(the spec does not fix the encoding); the framer's source is missing. -/
structure FramerConfig where
  headerSize : Nat
  maxLength : Nat
  parseHeader : List Byte → FrameHeader

/-- Modelled from the spec: the check of a header (section 4.2), whose source is missing: "a
frame with length ≤ header size or exceeding a configured maximum is a ProtocolError". -/
def checkHeader (cfg : FramerConfig) (h : FrameHeader) : Except ProxyError Unit :=
  if h.length ≤ (cfg.headerSize : Int) ∨ h.length > (cfg.maxLength : Int) then
    Except.error ProxyError.ProtocolError
  else
    Except.ok ()

/-- Modelled from the spec: what the framer makes of the bytes read so far; the framer's
source is missing.  A frame comes with its header, its payload, and the bytes read beyond
its end. -/
inductive ReadResult where
  | needMore
  | failed (e : ProxyError)
  | frame (hdr : FrameHeader) (payload : List Byte) (rest : List Byte)
deriving DecidableEq, Repr

/-- Modelled from the spec: the framer on the bytes buffered so far (section 4.2), whose
source is missing.  It waits for a whole header, checks it, waits for as many bytes as the
header declares, and hands on the payload as it was read. -/
def readFrame (cfg : FramerConfig) (buf : List Byte) : ReadResult :=
  if buf.length < cfg.headerSize then ReadResult.needMore
  else
    let hdr := cfg.parseHeader (buf.take cfg.headerSize)
    match checkHeader cfg hdr with
    | Except.error e => ReadResult.failed e
    | Except.ok _ =>
      if buf.length < hdr.length.toNat then ReadResult.needMore
      else
        ReadResult.frame hdr ((buf.take hdr.length.toNat).drop cfg.headerSize)
          (buf.drop hdr.length.toNat)

/-- Modelled from the spec: the framer on a stream that "may arrive across multiple partial
reads" (section 4.2): it resumes after each short read with the bytes buffered so far, until
a frame or an error comes out; the framer's source is missing. -/
def readChunks (cfg : FramerConfig) : List Byte → List (List Byte) → ReadResult
  | buf, [] => readFrame cfg buf
  | buf, c :: cs =>
    match readFrame cfg buf with
    | ReadResult.needMore => readChunks cfg (buf ++ c) cs
    | r => r

/-! ### Client session (spec section 4.3) -/

/-- Modelled from the spec: the states of a client session (section 4.3); the session's
source is missing. -/
inductive SessionState where
  | Idle
  | Forwarding
  | AwaitingResponse
  | Pinned
  | Closed
deriving DecidableEq, Repr

/-- Modelled from the spec: how the framer classifies a response (section 4.3): a command
"whose consistency must be preserved for subsequent calls", a command that "rotates affinity
away", or neither; the classification's source is missing. -/
inductive ResponseClass where
  | pinning
  | rotating
  | neutral
deriving DecidableEq, Repr

/-- Modelled from the spec: a `ClientSession` (section 3), whose source is missing: its
state, the connection it has borrowed, and its pin, "a reference to a specific
PooledServerConn plus a deadline". -/
structure ClientSession where
  state : SessionState
  borrowed : Option Nat
  pin : Option (Nat × Time)
deriving DecidableEq, Repr

/-- Modelled from the spec: what happens to a session (section 4.3); the session's source is
missing.  A client frame comes with the answer the pool's Acquire gives if it is asked. -/
inductive SessionInput where
  | clientFrame (now : Time) (acq : AcquireResult)
  | forwarded
  | response (now : Time) (cls : ResponseClass)
  | messageTimeout
  | upstreamError
  | clientIdleTimeout
deriving DecidableEq, Repr

/-- Modelled from the spec: what a session does (section 4.3); the session's source is
missing. -/
inductive SessionAction where
  | reusePinned (conn : Nat)
  | acquired (conn : Nat)
  | forward (conn : Nat)
  | relay
  | release (conn : Nat) (healthy : Bool)
  | closeClient
deriving DecidableEq, Repr

/-- Modelled from the spec: the release of the connection a session holds, if it holds one;
the session's source is missing. -/
def releaseHeld (s : ClientSession) (healthy : Bool) : List SessionAction :=
  match s.borrowed with
  | some c => [SessionAction.release c healthy]
  | none => []

/-- Modelled from the spec: a session that takes a new connection from the pool, giving back
the one it holds; a failed Acquire closes the client connection (section 7).  The session's
source is missing. -/
def acquireFresh (s : ClientSession) (acq : AcquireResult) : ClientSession × List SessionAction :=
  match acq with
  | AcquireResult.conn c =>
    (⟨SessionState.Forwarding, some c, none⟩, releaseHeld s true ++ [SessionAction.acquired c])
  | AcquireResult.failed _ =>
    (⟨SessionState.Closed, none, none⟩, releaseHeld s true ++ [SessionAction.closeClient])

/-- Modelled from the spec: a new client frame (section 4.3), "if currently Pinned and
now < pin deadline, reuse the pinned connection; otherwise Acquire from the member's pool";
the session's source is missing. -/
def onClientFrame (s : ClientSession) (now : Time) (acq : AcquireResult) :
    ClientSession × List SessionAction :=
  match s.pin with
  | some (c, deadline) =>
    if s.state = SessionState.Pinned ∧ now < deadline then
      (⟨SessionState.Forwarding, some c, some (c, deadline)⟩, [SessionAction.reusePinned c])
    else acquireFresh s acq
  | none => acquireFresh s acq

/-- Modelled from the spec: a response in AwaitingResponse on connection `c` (section 4.3):
it is relayed, and "if the response is classified by the Framer as a command whose
consistency must be preserved for subsequent calls, set/refresh the pin to (this
connection, now + GetLastErrorTimeout); otherwise clear any existing pin if the command
rotates affinity away from it".  A session left without a pin gives its connection back.
The session's source is missing. -/
def onResponse (getLastErrorTimeout : Duration) (s : ClientSession) (c : Nat) (now : Time) :
    ResponseClass → ClientSession × List SessionAction
  | ResponseClass.pinning =>
    (⟨SessionState.Pinned, some c, some (c, now + getLastErrorTimeout)⟩, [SessionAction.relay])
  | ResponseClass.rotating =>
    (⟨SessionState.Idle, none, none⟩, [SessionAction.relay, SessionAction.release c true])
  | ResponseClass.neutral =>
    match s.pin with
    | some p => (⟨SessionState.Pinned, some c, some p⟩, [SessionAction.relay])
    | none => (⟨SessionState.Idle, none, none⟩, [SessionAction.relay, SessionAction.release c true])

/-- Modelled from the spec: the state machine of a client session (section 4.3), whose
source is missing.  Requests are taken one at a time: a client frame is taken up in Idle or
Pinned only.  A message timeout and an upstream error release the connection as unhealthy,
a client idle timeout as healthy, and all three close the session. -/
def ClientSession.step (getLastErrorTimeout : Duration) (s : ClientSession) :
    SessionInput → ClientSession × List SessionAction
  | SessionInput.clientFrame now acq =>
    match s.state with
    | SessionState.Idle => onClientFrame s now acq
    | SessionState.Pinned => onClientFrame s now acq
    | _ => (s, [])
  | SessionInput.forwarded =>
    match s.state, s.borrowed with
    | SessionState.Forwarding, some c =>
      ({ s with state := SessionState.AwaitingResponse }, [SessionAction.forward c])
    | _, _ => (s, [])
  | SessionInput.response now cls =>
    match s.state, s.borrowed with
    | SessionState.AwaitingResponse, some c => onResponse getLastErrorTimeout s c now cls
    | _, _ => (s, [])
  | SessionInput.messageTimeout =>
    match s.state with
    | SessionState.AwaitingResponse =>
      (⟨SessionState.Closed, none, none⟩, releaseHeld s false ++ [SessionAction.closeClient])
    | _ => (s, [])
  | SessionInput.upstreamError =>
    match s.state with
    | SessionState.Closed => (s, [])
    | _ => (⟨SessionState.Closed, none, none⟩, releaseHeld s false ++ [SessionAction.closeClient])
  | SessionInput.clientIdleTimeout =>
    match s.state with
    | SessionState.Idle =>
      (⟨SessionState.Closed, none, none⟩, releaseHeld s true ++ [SessionAction.closeClient])
    | SessionState.Pinned =>
      (⟨SessionState.Closed, none, none⟩, releaseHeld s true ++ [SessionAction.closeClient])
    | _ => (s, [])

/-- Modelled from the spec: the session after a sequence of inputs; the session's source is
missing. -/
def ClientSession.run (getLastErrorTimeout : Duration) (s : ClientSession)
    (inputs : List SessionInput) : ClientSession :=
  inputs.foldl (fun st i => (ClientSession.step getLastErrorTimeout st i).1) s

/-- Modelled from the spec: the time an input carries, if it carries one; the session's
source is missing. -/
def SessionInput.time? : SessionInput → Option Time
  | SessionInput.clientFrame now _ => some now
  | SessionInput.response now _ => some now
  | _ => none

/-- A little-endian reading of a four-byte length prefix, the other header fields left at
zero; used in the examples of the framer. -/
def exampleParseHeader (bs : List Byte) : FrameHeader :=
  ⟨(bs.getD 0 0 + 256 * bs.getD 1 0 + 65536 * bs.getD 2 0 + 16777216 * bs.getD 3 0 : Nat), 0, 0, 0⟩

/-- A framer with four-byte headers and frames of at most 16 bytes. -/
def exampleFramer : FramerConfig := ⟨4, 16, exampleParseHeader⟩

/-- Modelled from the spec: one request of a session and the response to it (section 4.3):
when the client frame arrives, what Acquire answers if asked, when the response arrives and
how the framer classifies it; the session's source is missing. -/
structure Exchange where
  reqTime : Time
  acq : AcquireResult
  respTime : Time
  cls : ResponseClass
deriving DecidableEq, Repr

/-- Modelled from the spec: the inputs of one exchange, in order: the client frame, its
forwarding, the response; the session's source is missing. -/
def Exchange.inputs (e : Exchange) : List SessionInput :=
  [SessionInput.clientFrame e.reqTime e.acq, SessionInput.forwarded,
    SessionInput.response e.respTime e.cls]

/-- Modelled from the spec: the session after a sequence of exchanges, "processed strictly
sequentially" (section 4.3); the session's source is missing. -/
def ClientSession.exchanges (getLastErrorTimeout : Duration) (s : ClientSession)
    (exs : List Exchange) : ClientSession :=
  exs.foldl (fun st e => ClientSession.run getLastErrorTimeout st e.inputs) s

/-- The states a session can be in after a pin with deadline `d` on connection `c` was set
and no later response refreshed it. -/
def pinNotRefreshed (c : Nat) (d : Time) (s : ClientSession) : Prop :=
  s = ⟨SessionState.Pinned, some c, some (c, d)⟩ ∨ s = ⟨SessionState.Idle, none, none⟩ ∨
    s = ⟨SessionState.Closed, none, none⟩

/-! ## Example runs -/

/-- A run without command-line settings in which every step succeeds and SIGUSR1, then
SIGINT, then SIGTERM are sent. -/
def quietWorld : World where
  args := []
  provideErr := none
  populateErr := none
  objects := [⟨0, false⟩, ⟨1, true⟩, ⟨2, true⟩]
  registry := 7
  startErr := none
  signals := [Signal.SIGUSR1, Signal.SIGINT, Signal.SIGTERM]

/-- A run whose command line puts the end of the port range below its start. -/
def reversedPortsWorld : World where
  args := [FlagSetting.port_start 6010, FlagSetting.port_end 6000]
  provideErr := none
  populateErr := none
  objects := [⟨0, false⟩, ⟨1, true⟩]
  registry := 7
  startErr := none
  signals := [Signal.SIGTERM]

/-- A run in which `startstop.Start` fails. -/
def startFailsWorld : World where
  args := []
  provideErr := none
  populateErr := none
  objects := [⟨0, true⟩]
  registry := 7
  startErr := some ⟨"listen: address already in use"⟩
  signals := [Signal.SIGTERM]

/-- A run in which only signals without effect on the process are sent. -/
def noSignalWorld : World where
  args := []
  provideErr := none
  populateErr := none
  objects := [⟨0, true⟩]
  registry := 7
  startErr := none
  signals := [Signal.SIGUSR1, Signal.SIGCHLD]

/-- A run in which SIGHUP is sent before SIGTERM. -/
def hangupWorld : World where
  args := []
  provideErr := none
  populateErr := none
  objects := [⟨0, true⟩]
  registry := 7
  startErr := none
  signals := [Signal.SIGUSR2, Signal.SIGHUP, Signal.SIGTERM]

/-! # Theorems -/

/-! ## Facts about the trace of `Main` -/

theorem registerAll_eq_map (r : Nat) (objs : List Object) :
    registerAll r objs =
      (objs.filter (fun o => o.isRegisterMetrics)).map (fun o => Event.registerMetrics o r) := by
  induction objs with
  | nil => rfl
  | cons o rest ih =>
    by_cases h : o.isRegisterMetrics = true
    · simp [registerAll, h, ih]
    · simp [registerAll, h, ih]

theorem mem_registerAll (r : Nat) (objs : List Object) (e : Event) :
    e ∈ registerAll r objs ↔ ∃ o ∈ objs, o.isRegisterMetrics = true ∧ e = Event.registerMetrics o r := by
  rw [registerAll_eq_map]
  simp only [List.mem_map, List.mem_filter]
  constructor
  · rintro ⟨o, ⟨ho, hr⟩, rfl⟩
    exact ⟨o, ho, hr, rfl⟩
  · rintro ⟨o, ho, hr, rfl⟩
    exact ⟨o, ⟨ho, hr⟩, rfl⟩

theorem chanReceive_received (sigs pre post : List Signal) (s : Signal) (hs : s ∈ sigs)
    (hpre : ∀ x ∈ pre, x ∉ sigs ∧ x.endsProcess = false) :
    chanReceive sigs (pre ++ s :: post) = WaitResult.received s := by
  induction pre with
  | nil => simp [chanReceive, hs]
  | cons x rest ih =>
    have hx := hpre x (List.mem_cons_self _ _)
    simp only [List.cons_append, chanReceive, hx.1, hx.2, if_false, Bool.false_eq_true]
    exact ih (fun y hy => hpre y (List.mem_cons_of_mem _ hy))

theorem chanReceive_killed (sigs pre post : List Signal) (s : Signal) (hs : s ∉ sigs)
    (hend : s.endsProcess = true) (hpre : ∀ x ∈ pre, x ∉ sigs ∧ x.endsProcess = false) :
    chanReceive sigs (pre ++ s :: post) = WaitResult.killed s := by
  induction pre with
  | nil => simp [chanReceive, hs, hend]
  | cons x rest ih =>
    have hx := hpre x (List.mem_cons_self _ _)
    simp only [List.cons_append, chanReceive, hx.1, hx.2, if_false, Bool.false_eq_true]
    exact ih (fun y hy => hpre y (List.mem_cons_of_mem _ hy))

theorem chanReceive_blocked (sigs sent : List Signal)
    (h : ∀ x ∈ sent, x ∉ sigs ∧ x.endsProcess = false) :
    chanReceive sigs sent = WaitResult.blocked := by
  induction sent with
  | nil => rfl
  | cons x rest ih =>
    have hx := h x (List.mem_cons_self _ _)
    simp only [chanReceive, hx.1, hx.2, if_false, Bool.false_eq_true]
    exact ih (fun y hy => h y (List.mem_cons_of_mem _ hy))

/-- The trace of `Main` up to and including the call of `startstop.Start`. -/
theorem Main_trace_to_start (w : World) (hp : w.provideErr = none) (hq : w.populateErr = none) :
    ∃ post, (Main w).1 =
      [Event.flagParse, Event.graphProvide (mkReplicaSet (flagParse w.args)),
        Event.graphPopulate, Event.graphObjects, Event.newTestRegistry w.registry]
        ++ registerAll w.registry w.objects ++ Event.start w.objects :: post ∧
      (w.startErr ≠ none → post = []) ∧
      (∀ o r, Event.registerMetrics o r ∉ post) ∧ (∀ objs, Event.start objs ∉ post) := by
  unfold Main
  simp only [hp, hq]
  cases hs : w.startErr with
  | some e => exact ⟨[], by simp, by simp, by simp, by simp⟩
  | none =>
    cases hc : chanReceive [Signal.SIGTERM, Signal.SIGINT] w.signals with
    | blocked =>
      exact ⟨[Event.signalNotify [Signal.SIGTERM, Signal.SIGINT]], by simp, by simp, by simp,
        by simp⟩
    | killed s =>
      exact ⟨[Event.signalNotify [Signal.SIGTERM, Signal.SIGINT]], by simp, by simp, by simp,
        by simp⟩
    | received s =>
      exact ⟨[Event.signalNotify [Signal.SIGTERM, Signal.SIGINT], Event.chanRecv s,
        Event.signalStop, Event.stop w.objects], by simp, by simp, by simp, by simp⟩

theorem mem_Main_graphProvide (w : World) (rs : ReplicaSet) :
    Event.graphProvide rs ∈ (Main w).1 ↔ rs = mkReplicaSet (flagParse w.args) := by
  unfold Main
  cases w.provideErr <;> cases w.populateErr <;> cases w.startErr <;>
    cases chanReceive [Signal.SIGTERM, Signal.SIGINT] w.signals <;>
    simp [mem_registerAll]

/-- Every value of the flag variables is reached by some command line. -/
theorem flagParse_surjective (f : Flags) : ∃ args, flagParse args = f :=
  ⟨[.message_timeout f.messageTimeout, .client_idle_timeout f.clientIdleTimeout,
    .get_last_error_timeout f.getLastErrorTimeout, .max_connections f.maxConnections,
    .port_start f.portStart, .port_end f.portEnd, .addrs f.addrs, .host f.host,
    .max_per_client_connections f.maxPerClientConnections,
    .min_idle_connection f.minIdleConnections, .server_idle_timeout f.serverIdleTimeout,
    .server_close_poolsize f.serverClosePoolSize, .debug f.debug], by
    simp [flagParse, Flags.set]⟩

/-! ## The claims about `Main` -/

/-- C1: for every command line, the only `dvara.ReplicaSet` that `Main` hands to the graph
carries each parsed flag value in the field of the same meaning: Addrs = addrs,
HostListen = host, PortStart = port_start, PortEnd = port_end,
MaxConnections = max_connections, MinIdleConnections = min_idle_connection,
ServerIdleTimeout = server_idle_timeout, ServerClosePoolSize = server_close_poolsize,
ClientIdleTimeout = client_idle_timeout,
MaxPerClientConnections = max_per_client_connections,
GetLastErrorTimeout = get_last_error_timeout, MessageTimeout = message_timeout. -/
theorem Main_config_carries_flags (w : World) :
    ∃ rs : ReplicaSet, (∀ rs', Event.graphProvide rs' ∈ (Main w).1 ↔ rs' = rs) ∧
      rs.Addrs = (flagParse w.args).addrs ∧
      rs.HostListen = (flagParse w.args).host ∧
      rs.PortStart = (flagParse w.args).portStart ∧
      rs.PortEnd = (flagParse w.args).portEnd ∧
      rs.MaxConnections = (flagParse w.args).maxConnections ∧
      rs.MinIdleConnections = (flagParse w.args).minIdleConnections ∧
      rs.ServerIdleTimeout = (flagParse w.args).serverIdleTimeout ∧
      rs.ServerClosePoolSize = (flagParse w.args).serverClosePoolSize ∧
      rs.ClientIdleTimeout = (flagParse w.args).clientIdleTimeout ∧
      rs.MaxPerClientConnections = (flagParse w.args).maxPerClientConnections ∧
      rs.GetLastErrorTimeout = (flagParse w.args).getLastErrorTimeout ∧
      rs.MessageTimeout = (flagParse w.args).messageTimeout :=
  ⟨mkReplicaSet (flagParse w.args), mem_Main_graphProvide w, rfl, rfl, rfl, rfl, rfl, rfl,
    rfl, rfl, rfl, rfl, rfl, rfl⟩

/-- C2: with no settings on the command line, the configuration `Main` hands to the graph is
exactly MessageTimeout = 2 minutes, ClientIdleTimeout = 60 minutes,
GetLastErrorTimeout = 1 minute, MaxConnections = 1024, PortStart = 6000, PortEnd = 6010,
Addrs = "localhost:27017", HostListen = "127.0.0.1", MaxPerClientConnections = 1024,
MinIdleConnections = 64, ServerIdleTimeout = 60 minutes, ServerClosePoolSize = 1024
(durations in nanoseconds, one minute being 60000000000). -/
theorem Main_default_config (w : World) (h : w.args = []) :
    Minute = 60000000000 ∧
    ∀ rs, Event.graphProvide rs ∈ (Main w).1 ↔
      rs = { Addrs := "localhost:27017", HostListen := "127.0.0.1", PortStart := 6000,
             PortEnd := 6010, MaxConnections := 1024, MinIdleConnections := 64,
             ServerIdleTimeout := 60 * 60000000000, ServerClosePoolSize := 1024,
             ClientIdleTimeout := 60 * 60000000000, MaxPerClientConnections := 1024,
             GetLastErrorTimeout := 60000000000, MessageTimeout := 2 * 60000000000 } := by
  refine ⟨by decide, fun rs => ?_⟩
  rw [mem_Main_graphProvide, h]
  have : mkReplicaSet (flagParse []) =
      { Addrs := "localhost:27017", HostListen := "127.0.0.1", PortStart := 6000,
        PortEnd := 6010, MaxConnections := 1024, MinIdleConnections := 64,
        ServerIdleTimeout := 60 * 60000000000, ServerClosePoolSize := 1024,
        ClientIdleTimeout := 60 * 60000000000, MaxPerClientConnections := 1024,
        GetLastErrorTimeout := 60000000000, MessageTimeout := 2 * 60000000000 } := by decide
  rw [this]

theorem Main_default_config_witness :
    quietWorld.args = [] ∧ Minute = 60000000000 ∧
    ∀ rs, Event.graphProvide rs ∈ (Main quietWorld).1 ↔
      rs = { Addrs := "localhost:27017", HostListen := "127.0.0.1", PortStart := 6000,
             PortEnd := 6010, MaxConnections := 1024, MinIdleConnections := 64,
             ServerIdleTimeout := 60 * 60000000000, ServerClosePoolSize := 1024,
             ClientIdleTimeout := 60 * 60000000000, MaxPerClientConnections := 1024,
             GetLastErrorTimeout := 60000000000, MessageTimeout := 2 * 60000000000 } :=
  ⟨rfl, Main_default_config quietWorld rfl⟩

/-- C3: when Provide, Populate and Start succeed, `Main` asks for SIGTERM and SIGINT and for
no other signal, and waits.  When a SIGTERM or SIGINT is sent, the signals sent before it
having no effect on the process, `Main` receives it, then cancels signal delivery, then
calls Stop once, on the list of objects it passed to Start, and returns nil.  When instead
a signal that was not asked for ends the process first, or while no signal with an effect
is sent, the trace ends at Notify: neither `signal.Stop` nor Stop is called and `Main` does
not return.  When Provide, Populate or Start fails, Stop is never called. -/
theorem Main_signal_shutdown (w : World) :
    (w.provideErr = none → w.populateErr = none → w.startErr = none →
      (∀ pre s post, w.signals = pre ++ s :: post →
        (∀ x ∈ pre, x ≠ Signal.SIGTERM ∧ x ≠ Signal.SIGINT ∧ x.endsProcess = false) →
        ((s = Signal.SIGTERM ∨ s = Signal.SIGINT) →
          ∃ tpre, (Main w).1 = tpre ++ [Event.start w.objects,
              Event.signalNotify [Signal.SIGTERM, Signal.SIGINT], Event.chanRecv s,
              Event.signalStop, Event.stop w.objects] ∧
            (∀ objs, Event.stop objs ∉ tpre) ∧ (∀ objs, Event.start objs ∉ tpre) ∧
            (Main w).2 = Outcome.returned none) ∧
        (s ≠ Signal.SIGTERM → s ≠ Signal.SIGINT → s.endsProcess = true →
          ∃ tpre, (Main w).1 = tpre ++ [Event.start w.objects,
              Event.signalNotify [Signal.SIGTERM, Signal.SIGINT]] ∧
            (∀ objs, Event.stop objs ∉ tpre) ∧ (Main w).2 = Outcome.killed s)) ∧
      ((∀ x ∈ w.signals, x ≠ Signal.SIGTERM ∧ x ≠ Signal.SIGINT ∧ x.endsProcess = false) →
        ∃ tpre, (Main w).1 = tpre ++ [Event.start w.objects,
            Event.signalNotify [Signal.SIGTERM, Signal.SIGINT]] ∧
          (∀ objs, Event.stop objs ∉ tpre) ∧ (Main w).2 = Outcome.blocked)) ∧
    ((w.provideErr ≠ none ∨ w.populateErr ≠ none ∨ w.startErr ≠ none) →
      ∀ objs, Event.stop objs ∉ (Main w).1) := by
  have hnotin : ∀ x : Signal, x ≠ Signal.SIGTERM ∧ x ≠ Signal.SIGINT ∧ x.endsProcess = false →
      x ∉ [Signal.SIGTERM, Signal.SIGINT] ∧ x.endsProcess = false := by
    intro x hx
    refine ⟨?_, hx.2.2⟩
    simp only [List.mem_cons, List.mem_singleton, List.not_mem_nil, or_false, not_or]
    exact ⟨hx.1, hx.2.1⟩
  refine ⟨fun hp hq hs => ⟨fun pre s post hsig hpre => ⟨fun hterm => ?_, fun h1 h2 hend => ?_⟩,
    fun hnone => ?_⟩, fun hfail objs => ?_⟩
  · have hmem : s ∈ [Signal.SIGTERM, Signal.SIGINT] := by
      rcases hterm with rfl | rfl <;> simp
    have hc : chanReceive [Signal.SIGTERM, Signal.SIGINT] w.signals = WaitResult.received s := by
      rw [hsig]
      exact chanReceive_received _ pre post s hmem (fun x hx => hnotin x (hpre x hx))
    refine ⟨[Event.flagParse, Event.graphProvide (mkReplicaSet (flagParse w.args)),
      Event.graphPopulate, Event.graphObjects, Event.newTestRegistry w.registry]
      ++ registerAll w.registry w.objects, ?_, ?_, ?_, ?_⟩
    · unfold Main; simp [hp, hq, hs, hc]
    · intro objs; simp [mem_registerAll]
    · intro objs; simp [mem_registerAll]
    · unfold Main; simp [hp, hq, hs, hc]
  · have hmem : s ∉ [Signal.SIGTERM, Signal.SIGINT] := by
      simp only [List.mem_cons, List.mem_singleton, List.not_mem_nil, or_false, not_or]
      exact ⟨h1, h2⟩
    have hc : chanReceive [Signal.SIGTERM, Signal.SIGINT] w.signals = WaitResult.killed s := by
      rw [hsig]
      exact chanReceive_killed _ pre post s hmem hend (fun x hx => hnotin x (hpre x hx))
    refine ⟨[Event.flagParse, Event.graphProvide (mkReplicaSet (flagParse w.args)),
      Event.graphPopulate, Event.graphObjects, Event.newTestRegistry w.registry]
      ++ registerAll w.registry w.objects, ?_, ?_, ?_⟩
    · unfold Main; simp [hp, hq, hs, hc]
    · intro objs; simp [mem_registerAll]
    · unfold Main; simp [hp, hq, hs, hc]
  · have hc : chanReceive [Signal.SIGTERM, Signal.SIGINT] w.signals = WaitResult.blocked :=
      chanReceive_blocked _ _ (fun x hx => hnotin x (hnone x hx))
    refine ⟨[Event.flagParse, Event.graphProvide (mkReplicaSet (flagParse w.args)),
      Event.graphPopulate, Event.graphObjects, Event.newTestRegistry w.registry]
      ++ registerAll w.registry w.objects, ?_, ?_, ?_⟩
    · unfold Main; simp [hp, hq, hs, hc]
    · intro objs; simp [mem_registerAll]
    · unfold Main; simp [hp, hq, hs, hc]
  · unfold Main
    cases hp : w.provideErr with
    | some e => simp
    | none =>
      cases hq : w.populateErr with
      | some e => simp
      | none =>
        cases hs : w.startErr with
        | some e => simp [mem_registerAll]
        | none => simp [hp, hq, hs] at hfail

theorem Main_signal_shutdown_witness :
    (∃ tpre, (Main quietWorld).1 = tpre ++ [Event.start quietWorld.objects,
        Event.signalNotify [Signal.SIGTERM, Signal.SIGINT], Event.chanRecv Signal.SIGINT,
        Event.signalStop, Event.stop quietWorld.objects] ∧
      (∀ objs, Event.stop objs ∉ tpre) ∧ (∀ objs, Event.start objs ∉ tpre) ∧
      (Main quietWorld).2 = Outcome.returned none) ∧
    (∃ tpre, (Main hangupWorld).1 = tpre ++ [Event.start hangupWorld.objects,
        Event.signalNotify [Signal.SIGTERM, Signal.SIGINT]] ∧
      (∀ objs, Event.stop objs ∉ tpre) ∧ (Main hangupWorld).2 = Outcome.killed Signal.SIGHUP) ∧
    (∃ tpre, (Main noSignalWorld).1 = tpre ++ [Event.start noSignalWorld.objects,
        Event.signalNotify [Signal.SIGTERM, Signal.SIGINT]] ∧
      (∀ objs, Event.stop objs ∉ tpre) ∧ (Main noSignalWorld).2 = Outcome.blocked) ∧
    (∀ objs, Event.stop objs ∉ (Main startFailsWorld).1) :=
  ⟨(((Main_signal_shutdown quietWorld).1 rfl rfl rfl).1 [Signal.SIGUSR1] Signal.SIGINT
      [Signal.SIGTERM] rfl (by decide)).1 (by decide),
   (((Main_signal_shutdown hangupWorld).1 rfl rfl rfl).1 [Signal.SIGUSR2] Signal.SIGHUP
      [Signal.SIGTERM] rfl (by decide)).2 (by decide) (by decide) (by decide),
   ((Main_signal_shutdown noSignalWorld).1 rfl rfl rfl).2 (by decide),
   (Main_signal_shutdown startFailsWorld).2 (by decide)⟩

/-- C4, as stated, fails: with `-port_start=6010 -port_end=6000` the configuration violates
the port-range invariant, yet `Main` hands it to the graph, calls Start on the objects, and
(Start succeeding) runs until the termination signal. -/
theorem Main_port_range_counterexample :
    ¬ portRangeInvariant (mkReplicaSet (flagParse reversedPortsWorld.args)) ∧
    Event.graphProvide (mkReplicaSet (flagParse reversedPortsWorld.args))
      ∈ (Main reversedPortsWorld).1 ∧
    Event.start reversedPortsWorld.objects ∈ (Main reversedPortsWorld).1 ∧
    (Main reversedPortsWorld).2 = Outcome.returned none := by
  decide

/-- C4, amended: `Main` does not check the port range.  For every command line the
configuration it hands to the graph carries port_start, port_end and addrs unchanged, and
whenever Provide and Populate succeed `Main` calls Start on the objects of the graph,
whatever the port range is. -/
theorem Main_hands_config_unchecked (w : World) :
    Event.graphProvide (mkReplicaSet (flagParse w.args)) ∈ (Main w).1 ∧
    (mkReplicaSet (flagParse w.args)).PortStart = (flagParse w.args).portStart ∧
    (mkReplicaSet (flagParse w.args)).PortEnd = (flagParse w.args).portEnd ∧
    (mkReplicaSet (flagParse w.args)).Addrs = (flagParse w.args).addrs ∧
    (w.provideErr = none → w.populateErr = none → Event.start w.objects ∈ (Main w).1) := by
  refine ⟨(mem_Main_graphProvide w _).2 rfl, rfl, rfl, rfl, fun hp hq => ?_⟩
  obtain ⟨post, h, -⟩ := Main_trace_to_start w hp hq
  rw [h]
  simp

theorem Main_hands_config_unchecked_witness :
    Event.graphProvide (mkReplicaSet (flagParse reversedPortsWorld.args))
      ∈ (Main reversedPortsWorld).1 ∧
    (mkReplicaSet (flagParse reversedPortsWorld.args)).PortStart = 6010 ∧
    (mkReplicaSet (flagParse reversedPortsWorld.args)).PortEnd = 6000 ∧
    Event.start reversedPortsWorld.objects ∈ (Main reversedPortsWorld).1 :=
  ⟨(Main_hands_config_unchecked reversedPortsWorld).1,
   (Main_hands_config_unchecked reversedPortsWorld).2.1,
   (Main_hands_config_unchecked reversedPortsWorld).2.2.1,
   (Main_hands_config_unchecked reversedPortsWorld).2.2.2.2 rfl rfl⟩

/-- C8: `Main` returns the error `e` exactly when `e` is the error of the first of
Provide, Populate, Start that fails (so it returns a non-nil error exactly when one of them
fails), and after a failing step no later step runs: a Provide failure ends the trace at
Provide, a Populate failure at Populate, and a Start failure at Start, before any use of
the signal package. -/
theorem Main_error_first_failure (w : World) :
    (∀ e, (Main w).2 = Outcome.returned (some e) ↔
      (w.provideErr = some e ∨ (w.provideErr = none ∧ w.populateErr = some e) ∨
        (w.provideErr = none ∧ w.populateErr = none ∧ w.startErr = some e))) ∧
    ((∃ e, (Main w).2 = Outcome.returned (some e)) ↔
      (w.provideErr ≠ none ∨ w.populateErr ≠ none ∨ w.startErr ≠ none)) ∧
    (w.provideErr ≠ none →
      (Main w).1 = [Event.flagParse, Event.graphProvide (mkReplicaSet (flagParse w.args))]) ∧
    (w.provideErr = none → w.populateErr ≠ none →
      (Main w).1 = [Event.flagParse, Event.graphProvide (mkReplicaSet (flagParse w.args)),
        Event.graphPopulate]) ∧
    (w.provideErr = none → w.populateErr = none → w.startErr ≠ none →
      (Main w).1 = [Event.flagParse, Event.graphProvide (mkReplicaSet (flagParse w.args)),
        Event.graphPopulate, Event.graphObjects, Event.newTestRegistry w.registry]
        ++ registerAll w.registry w.objects ++ [Event.start w.objects]) := by
  unfold Main
  cases hp : w.provideErr with
  | some e => simp
  | none =>
    cases hq : w.populateErr with
    | some e => simp
    | none =>
      cases hs : w.startErr with
      | some e => simp
      | none =>
        cases hc : chanReceive [Signal.SIGTERM, Signal.SIGINT] w.signals <;> simp

theorem Main_error_first_failure_witness :
    (Main startFailsWorld).2 = Outcome.returned (some ⟨"listen: address already in use"⟩) ∧
    (Main startFailsWorld).1 =
      [Event.flagParse, Event.graphProvide (mkReplicaSet (flagParse startFailsWorld.args)),
        Event.graphPopulate, Event.graphObjects, Event.newTestRegistry startFailsWorld.registry]
        ++ registerAll startFailsWorld.registry startFailsWorld.objects
        ++ [Event.start startFailsWorld.objects] :=
  ⟨((Main_error_first_failure startFailsWorld).1 _).2 (Or.inr (Or.inr ⟨rfl, rfl, rfl⟩)),
   (Main_error_first_failure startFailsWorld).2.2.2.2 rfl rfl (by decide)⟩

/-- C9: when Provide and Populate succeed, the calls of RegisterMetrics that `Main` makes
are exactly one per entry of the object list whose value implements `registerMetrics`, in
the order of the list, each with the registry returned by NewTestRegistry, and all of them
come before the call of Start on the objects. -/
theorem Main_registers_metrics (w : World) (hp : w.provideErr = none)
    (hq : w.populateErr = none) :
    ∃ pre post, (Main w).1 = pre ++ [Event.newTestRegistry w.registry] ++
        (w.objects.filter (fun o => o.isRegisterMetrics)).map
          (fun o => Event.registerMetrics o w.registry) ++
        Event.start w.objects :: post ∧
      (∀ o r, Event.registerMetrics o r ∉ pre) ∧ (∀ o r, Event.registerMetrics o r ∉ post) ∧
      (∀ objs, Event.start objs ∉ pre) ∧ (∀ objs, Event.start objs ∉ post) := by
  obtain ⟨post, h, -, h1, h2⟩ := Main_trace_to_start w hp hq
  refine ⟨[Event.flagParse, Event.graphProvide (mkReplicaSet (flagParse w.args)),
        Event.graphPopulate, Event.graphObjects], post, ?_, by simp, h1, by simp, h2⟩
  rw [h, registerAll_eq_map]
  simp

theorem Main_registers_metrics_witness :
    ∃ pre post, (Main quietWorld).1 = pre ++ [Event.newTestRegistry 7] ++
        [Event.registerMetrics ⟨1, true⟩ 7, Event.registerMetrics ⟨2, true⟩ 7] ++
        Event.start [⟨0, false⟩, ⟨1, true⟩, ⟨2, true⟩] :: post ∧
      (∀ o r, Event.registerMetrics o r ∉ pre) ∧ (∀ o r, Event.registerMetrics o r ∉ post) ∧
      (∀ objs, Event.start objs ∉ pre) ∧ (∀ objs, Event.start objs ∉ post) :=
  Main_registers_metrics quietWorld rfl rfl

/-- C10: the configuration built from the defaults is well-formed:
MinIdleConnections = 64 ≤ MaxConnections = 1024, MaxPerClientConnections ≤ MaxConnections,
PortStart = 6000 ≤ PortEnd = 6010 with at least one port per seed address (there is one
seed address), ServerClosePoolSize ≥ 1, and the four timeouts are strictly positive. -/
theorem default_config_well_formed :
    (mkReplicaSet (flagParse [])).MinIdleConnections = 64 ∧
    (mkReplicaSet (flagParse [])).MaxConnections = 1024 ∧
    (mkReplicaSet (flagParse [])).MinIdleConnections ≤
      (mkReplicaSet (flagParse [])).MaxConnections ∧
    (mkReplicaSet (flagParse [])).MaxPerClientConnections ≤
      (mkReplicaSet (flagParse [])).MaxConnections ∧
    (mkReplicaSet (flagParse [])).PortStart = 6000 ∧
    (mkReplicaSet (flagParse [])).PortEnd = 6010 ∧
    seedCount (mkReplicaSet (flagParse [])).Addrs = 1 ∧
    portRangeInvariant (mkReplicaSet (flagParse [])) ∧
    1 ≤ (mkReplicaSet (flagParse [])).ServerClosePoolSize ∧
    0 < (mkReplicaSet (flagParse [])).MessageTimeout ∧
    0 < (mkReplicaSet (flagParse [])).ClientIdleTimeout ∧
    0 < (mkReplicaSet (flagParse [])).GetLastErrorTimeout ∧
    0 < (mkReplicaSet (flagParse [])).ServerIdleTimeout := by
  decide

/-! ## The connection pool never exceeds its capacity -/

theorem reapOldest_kept_length (cfg : PoolConfig) (now : Time) (budget : Nat)
    (cs : List PooledServerConn) : (reapOldest cfg now budget cs).1.length ≤ cs.length := by
  induction cs generalizing budget with
  | nil => cases budget <;> simp [reapOldest]
  | cons c cs ih =>
    cases budget with
    | zero => simp [reapOldest]
    | succ b =>
      simp only [reapOldest]
      split
      · exact Nat.le_succ_of_le (ih b)
      · simpa using ih (b + 1)

theorem Pool.total_dial_le (p : Pool) (dialOk : Bool) :
    (Pool.dial p dialOk).1.total ≤ p.total + 1 := by
  unfold Pool.dial
  cases dialOk <;> simp [Pool.total]
  omega

theorem Pool.total_acquire_le (cfg : PoolConfig) (p : Pool) (now : Time) (dialOk : Bool)
    (h : p.total ≤ cfg.MaxConnections) :
    (Pool.acquire cfg p now dialOk).1.total ≤ cfg.MaxConnections := by
  unfold Pool.acquire
  split
  · rename_i c rest hidle
    have hlen : p.total = rest.length + 1 + p.inUse.length := by simp [Pool.total, hidle]
    split
    · refine le_trans (Pool.total_dial_le _ dialOk) ?_
      simp only [Pool.total]
      omega
    · simp only [Pool.total, List.length_cons]
      omega
  · split
    · rename_i hlt
      exact le_trans (Pool.total_dial_le _ dialOk) hlt
    · exact h

theorem Pool.total_release_le (cfg : PoolConfig) (p : Pool) (conn : Nat) (healthy : Bool)
    (now : Time) : (Pool.release cfg p conn healthy now).total ≤ p.total := by
  unfold Pool.release
  split
  · rename_i hmem
    have hpos : 0 < p.inUse.length := List.length_pos_of_mem hmem
    have herase : (p.inUse.erase conn).length = p.inUse.length - 1 :=
      List.length_erase_of_mem hmem
    split
    · simp only [Pool.total, List.length_cons, herase]
      omega
    · simp only [Pool.total, herase]
      omega
  · exact le_refl _

theorem Pool.total_reap_le (cfg : PoolConfig) (p : Pool) (now : Time) :
    (Pool.reap cfg p now).total ≤ p.total := by
  have h := reapOldest_kept_length cfg now (p.idle.length - cfg.MinIdleConnections)
    p.idle.reverse
  simp only [List.length_reverse] at h
  simp only [Pool.reap, Pool.total, List.length_reverse]
  omega

theorem Pool.total_closeOne (p : Pool) : (Pool.closeOne p).total = p.total := by
  unfold Pool.closeOne
  split <;> simp [Pool.total]

theorem Pool.total_step_le (cfg : PoolConfig) (p : Pool) (s : PoolStep)
    (h : p.total ≤ cfg.MaxConnections) : (Pool.step cfg p s).total ≤ cfg.MaxConnections := by
  cases s with
  | acquire now dialOk => exact Pool.total_acquire_le cfg p now dialOk h
  | release conn healthy now => exact le_trans (Pool.total_release_le cfg p conn healthy now) h
  | reap now => exact le_trans (Pool.total_reap_le cfg p now) h
  | closeWorker => simpa [Pool.step, Pool.total_closeOne] using h

theorem Pool.total_foldl_le (cfg : PoolConfig) (steps : List PoolStep) (p : Pool)
    (h : p.total ≤ cfg.MaxConnections) :
    (steps.foldl (Pool.step cfg) p).total ≤ cfg.MaxConnections := by
  induction steps generalizing p with
  | nil => exact h
  | cons s rest ih => exact ih _ (Pool.total_step_le cfg p s h)

/-- C5: for every pool configuration and every sequence of Acquire, Release, idle-reaper and
close-worker steps from the empty pool, after every step (after every prefix of the
sequence) the number of idle plus in-use connections is at most MaxConnections. -/
theorem Pool.connections_bounded (cfg : PoolConfig) (steps : List PoolStep) (n : Nat) :
    (Pool.run cfg (steps.take n)).idle.length + (Pool.run cfg (steps.take n)).inUse.length
      ≤ cfg.MaxConnections :=
  Pool.total_foldl_le cfg (steps.take n) Pool.empty (Nat.zero_le _)

/-! ## The framer -/

theorem checkHeader_error_iff (cfg : FramerConfig) (h : FrameHeader) :
    checkHeader cfg h = Except.error ProxyError.ProtocolError ↔
      (h.length ≤ (cfg.headerSize : Int) ∨ h.length > (cfg.maxLength : Int)) := by
  unfold checkHeader
  split <;> simp_all

theorem checkHeader_ok_iff (cfg : FramerConfig) (h : FrameHeader) :
    checkHeader cfg h = Except.ok () ↔
      ¬ (h.length ≤ (cfg.headerSize : Int) ∨ h.length > (cfg.maxLength : Int)) := by
  unfold checkHeader
  split <;> simp_all

theorem readFrame_short (cfg : FramerConfig) (buf : List Byte)
    (h : buf.length < cfg.headerSize) : readFrame cfg buf = ReadResult.needMore := by
  simp [readFrame, h]

theorem readFrame_invalid (cfg : FramerConfig) (buf : List Byte)
    (hlen : cfg.headerSize ≤ buf.length)
    (hbad : (cfg.parseHeader (buf.take cfg.headerSize)).length ≤ (cfg.headerSize : Int) ∨
      (cfg.parseHeader (buf.take cfg.headerSize)).length > (cfg.maxLength : Int)) :
    readFrame cfg buf = ReadResult.failed ProxyError.ProtocolError := by
  have hc := (checkHeader_error_iff cfg _).2 hbad
  simp only [readFrame, hc, Nat.not_lt.2 hlen, if_false]

theorem readFrame_incomplete (cfg : FramerConfig) (buf : List Byte)
    (hlen : cfg.headerSize ≤ buf.length)
    (hgood : ¬ ((cfg.parseHeader (buf.take cfg.headerSize)).length ≤ (cfg.headerSize : Int) ∨
      (cfg.parseHeader (buf.take cfg.headerSize)).length > (cfg.maxLength : Int)))
    (hshort : buf.length < (cfg.parseHeader (buf.take cfg.headerSize)).length.toNat) :
    readFrame cfg buf = ReadResult.needMore := by
  have hc := (checkHeader_ok_iff cfg _).2 hgood
  simp only [readFrame, hc, Nat.not_lt.2 hlen, if_false, hshort, if_true]

theorem readFrame_complete (cfg : FramerConfig) (buf : List Byte)
    (hlen : cfg.headerSize ≤ buf.length)
    (hgood : ¬ ((cfg.parseHeader (buf.take cfg.headerSize)).length ≤ (cfg.headerSize : Int) ∨
      (cfg.parseHeader (buf.take cfg.headerSize)).length > (cfg.maxLength : Int)))
    (hfull : (cfg.parseHeader (buf.take cfg.headerSize)).length.toNat ≤ buf.length) :
    readFrame cfg buf = ReadResult.frame (cfg.parseHeader (buf.take cfg.headerSize))
      ((buf.take (cfg.parseHeader (buf.take cfg.headerSize)).length.toNat).drop cfg.headerSize)
      (buf.drop (cfg.parseHeader (buf.take cfg.headerSize)).length.toNat) := by
  have hc := (checkHeader_ok_iff cfg _).2 hgood
  simp only [readFrame, hc, Nat.not_lt.2 hlen, if_false, Nat.not_lt.2 hfull]

/-- A stream whose header is refused is refused however it is cut into reads. -/
theorem readChunks_invalid (cfg : FramerConfig) (chunks : List (List Byte)) (buf : List Byte)
    (hlen : cfg.headerSize ≤ (buf ++ chunks.flatten).length)
    (hbad : (cfg.parseHeader ((buf ++ chunks.flatten).take cfg.headerSize)).length
        ≤ (cfg.headerSize : Int) ∨
      (cfg.parseHeader ((buf ++ chunks.flatten).take cfg.headerSize)).length
        > (cfg.maxLength : Int)) :
    readChunks cfg buf chunks = ReadResult.failed ProxyError.ProtocolError := by
  induction chunks generalizing buf with
  | nil =>
    simp only [List.flatten_nil, List.append_nil] at hlen hbad
    exact readFrame_invalid cfg buf hlen hbad
  | cons c cs ih =>
    simp only [List.flatten_cons, ← List.append_assoc] at hlen hbad
    by_cases hb : buf.length < cfg.headerSize
    · simp only [readChunks, readFrame_short cfg buf hb]
      exact ih (buf ++ c) hlen hbad
    · have hb' : cfg.headerSize ≤ buf.length := Nat.not_lt.1 hb
      rw [List.append_assoc, List.take_append_of_le_length hb'] at hbad
      simp only [readChunks, readFrame_invalid cfg buf hb' hbad]

/-- A stream whose header is accepted and that holds the whole frame yields the frame, with
the payload as it stands in the stream, however it is cut into reads. -/
theorem readChunks_complete (cfg : FramerConfig) (chunks : List (List Byte)) (buf : List Byte)
    (hlen : cfg.headerSize ≤ (buf ++ chunks.flatten).length)
    (hgood : ¬ ((cfg.parseHeader ((buf ++ chunks.flatten).take cfg.headerSize)).length
        ≤ (cfg.headerSize : Int) ∨
      (cfg.parseHeader ((buf ++ chunks.flatten).take cfg.headerSize)).length
        > (cfg.maxLength : Int)))
    (hfull : (cfg.parseHeader ((buf ++ chunks.flatten).take cfg.headerSize)).length.toNat
      ≤ (buf ++ chunks.flatten).length) :
    ∃ rest, readChunks cfg buf chunks =
      ReadResult.frame (cfg.parseHeader ((buf ++ chunks.flatten).take cfg.headerSize))
        (((buf ++ chunks.flatten).take
          (cfg.parseHeader ((buf ++ chunks.flatten).take cfg.headerSize)).length.toNat).drop
            cfg.headerSize) rest := by
  induction chunks generalizing buf with
  | nil =>
    simp only [List.flatten_nil, List.append_nil] at hlen hgood hfull ⊢
    exact ⟨_, readFrame_complete cfg buf hlen hgood hfull⟩
  | cons c cs ih =>
    simp only [List.flatten_cons, ← List.append_assoc] at hlen hgood hfull ⊢
    by_cases hb : buf.length < cfg.headerSize
    · simp only [readChunks, readFrame_short cfg buf hb]
      exact ih (buf ++ c) hlen hgood hfull
    · have hb' : cfg.headerSize ≤ buf.length := Nat.not_lt.1 hb
      have htake : ((buf ++ c) ++ cs.flatten).take cfg.headerSize = buf.take cfg.headerSize := by
        rw [List.append_assoc, List.take_append_of_le_length hb']
      by_cases hshort : buf.length < (cfg.parseHeader (buf.take cfg.headerSize)).length.toNat
      · have hgood' := hgood
        rw [htake] at hgood'
        simp only [readChunks, readFrame_incomplete cfg buf hb' hgood' hshort]
        exact ih (buf ++ c) hlen hgood hfull
      · have hge : (cfg.parseHeader (buf.take cfg.headerSize)).length.toNat ≤ buf.length :=
          Nat.not_lt.1 hshort
        rw [htake] at hgood ⊢
        refine ⟨buf.drop (cfg.parseHeader (buf.take cfg.headerSize)).length.toNat, ?_⟩
        simp only [readChunks, readFrame_complete cfg buf hb' hgood hge]
        rw [List.append_assoc, List.take_append_of_le_length hge]

/-- While the frame is not all there, the framer keeps waiting; it does not report an
error. -/
theorem readChunks_not_failed (cfg : FramerConfig) (chunks : List (List Byte)) (buf : List Byte)
    (hlen : cfg.headerSize ≤ (buf ++ chunks.flatten).length)
    (hgood : ¬ ((cfg.parseHeader ((buf ++ chunks.flatten).take cfg.headerSize)).length
        ≤ (cfg.headerSize : Int) ∨
      (cfg.parseHeader ((buf ++ chunks.flatten).take cfg.headerSize)).length
        > (cfg.maxLength : Int))) (e : ProxyError) :
    readChunks cfg buf chunks ≠ ReadResult.failed e := by
  induction chunks generalizing buf with
  | nil =>
    simp only [List.flatten_nil, List.append_nil] at hlen hgood
    by_cases hshort : buf.length < (cfg.parseHeader (buf.take cfg.headerSize)).length.toNat
    · simp [readChunks, readFrame_incomplete cfg buf hlen hgood hshort]
    · simp [readChunks, readFrame_complete cfg buf hlen hgood (Nat.not_lt.1 hshort)]
  | cons c cs ih =>
    simp only [List.flatten_cons, ← List.append_assoc] at hlen hgood
    by_cases hb : buf.length < cfg.headerSize
    · simp only [readChunks, readFrame_short cfg buf hb]
      exact ih (buf ++ c) hlen hgood
    · have hb' : cfg.headerSize ≤ buf.length := Nat.not_lt.1 hb
      have htake : ((buf ++ c) ++ cs.flatten).take cfg.headerSize = buf.take cfg.headerSize := by
        rw [List.append_assoc, List.take_append_of_le_length hb']
      by_cases hshort : buf.length < (cfg.parseHeader (buf.take cfg.headerSize)).length.toNat
      · have hgood' := hgood
        rw [htake] at hgood'
        simp only [readChunks, readFrame_incomplete cfg buf hb' hgood' hshort]
        exact ih (buf ++ c) hlen hgood
      · rw [htake] at hgood
        simp [readChunks, readFrame_complete cfg buf hb' hgood (Nat.not_lt.1 hshort)]

/-- C6: the check of a header reports ProtocolError exactly when the declared length is at
most the header size or above the configured maximum, and accepts every other length; on a
stream cut into partial reads in any way, once a header has arrived the framer reports
ProtocolError exactly in that case, and for every other length, once the declared number of
bytes has arrived, it yields the frame with the payload bytes as they stand in the stream
after the header. -/
theorem framer_protocol_error_iff (cfg : FramerConfig) :
    (∀ h : FrameHeader,
      (checkHeader cfg h = Except.error ProxyError.ProtocolError ↔
        (h.length ≤ (cfg.headerSize : Int) ∨ h.length > (cfg.maxLength : Int))) ∧
      (checkHeader cfg h = Except.ok () ↔
        ¬ (h.length ≤ (cfg.headerSize : Int) ∨ h.length > (cfg.maxLength : Int)))) ∧
    (∀ (chunks : List (List Byte)),
      cfg.headerSize ≤ chunks.flatten.length →
      ((readChunks cfg [] chunks = ReadResult.failed ProxyError.ProtocolError ↔
        ((cfg.parseHeader (chunks.flatten.take cfg.headerSize)).length ≤ (cfg.headerSize : Int) ∨
         (cfg.parseHeader (chunks.flatten.take cfg.headerSize)).length
           > (cfg.maxLength : Int))) ∧
       (¬ ((cfg.parseHeader (chunks.flatten.take cfg.headerSize)).length
            ≤ (cfg.headerSize : Int) ∨
          (cfg.parseHeader (chunks.flatten.take cfg.headerSize)).length
            > (cfg.maxLength : Int)) →
        (cfg.parseHeader (chunks.flatten.take cfg.headerSize)).length.toNat
          ≤ chunks.flatten.length →
        ∃ rest, readChunks cfg [] chunks =
          ReadResult.frame (cfg.parseHeader (chunks.flatten.take cfg.headerSize))
            ((chunks.flatten.take
              (cfg.parseHeader (chunks.flatten.take cfg.headerSize)).length.toNat).drop
                cfg.headerSize) rest))) := by
  refine ⟨fun h => ⟨checkHeader_error_iff cfg h, checkHeader_ok_iff cfg h⟩,
    fun chunks hlen => ⟨⟨fun hfail => ?_, fun hbad => ?_⟩, fun hgood hfull => ?_⟩⟩
  · by_contra hgood
    exact readChunks_not_failed cfg chunks [] (by simpa using hlen) (by simpa using hgood) _ hfail
  · exact readChunks_invalid cfg chunks [] (by simpa using hlen) (by simpa using hbad)
  · simpa using readChunks_complete cfg chunks [] (by simpa using hlen) (by simpa using hgood)
      (by simpa using hfull)

theorem framer_protocol_error_iff_witness :
    (readChunks exampleFramer [] [[4, 0], [0, 0, 9], [8, 7]]
        = ReadResult.failed ProxyError.ProtocolError ↔
      ((exampleFramer.parseHeader ([[4, 0], [0, 0, 9], [8, 7]].flatten.take 4)).length ≤ (4 : Int) ∨
       (exampleFramer.parseHeader ([[4, 0], [0, 0, 9], [8, 7]].flatten.take 4)).length
         > (16 : Int))) ∧
    (∃ rest, readChunks exampleFramer [] [[6, 0], [0, 0, 9], [8, 7]] =
      ReadResult.frame (exampleFramer.parseHeader ([[6, 0], [0, 0, 9], [8, 7]].flatten.take 4))
        (([[6, 0], [0, 0, 9], [8, 7]].flatten.take
          (exampleFramer.parseHeader
            ([[6, 0], [0, 0, 9], [8, 7]].flatten.take 4)).length.toNat).drop 4) rest) :=
  ⟨((framer_protocol_error_iff exampleFramer).2 [[4, 0], [0, 0, 9], [8, 7]] (by decide)).1,
   ((framer_protocol_error_iff exampleFramer).2 [[6, 0], [0, 0, 9], [8, 7]] (by decide)).2
     (by decide) (by decide)⟩

/-! ## Pinning of a client session -/

/-- A pinned session stays pinned to the same connection, with a deadline that is not
earlier, over an exchange that starts before the deadline and whose response does not rotate
affinity away. -/
theorem exchange_keeps_pin (glet : Duration) (c : Nat) (t d : Time) (e : Exchange)
    (hd : t + glet ≤ d) (hreq : e.reqTime < t + glet) (hresp : t ≤ e.respTime)
    (hcls : e.cls ≠ ResponseClass.rotating) :
    ∃ d', t + glet ≤ d' ∧
      ClientSession.run glet ⟨SessionState.Pinned, some c, some (c, d)⟩ e.inputs
        = ⟨SessionState.Pinned, some c, some (c, d')⟩ := by
  have hlt : e.reqTime < d := lt_of_lt_of_le hreq hd
  cases hc : e.cls with
  | rotating => exact absurd hc hcls
  | pinning =>
    refine ⟨e.respTime + glet, add_le_add_right hresp glet, ?_⟩
    simp [ClientSession.run, Exchange.inputs, ClientSession.step, onClientFrame, onResponse,
      hlt, hc]
  | neutral =>
    refine ⟨d, hd, ?_⟩
    simp [ClientSession.run, Exchange.inputs, ClientSession.step, onClientFrame, onResponse,
      hlt, hc]

theorem exchanges_keep_pin (glet : Duration) (c : Nat) (t : Time) (now : Time)
    (hnow : now < t + glet) (exs : List Exchange) (d : Time) (hd : t + glet ≤ d)
    (hex : ∀ e ∈ exs, e.reqTime ≤ now ∧ t ≤ e.respTime ∧ e.cls ≠ ResponseClass.rotating) :
    ∃ d', t + glet ≤ d' ∧
      ClientSession.exchanges glet ⟨SessionState.Pinned, some c, some (c, d)⟩ exs
        = ⟨SessionState.Pinned, some c, some (c, d')⟩ := by
  induction exs generalizing d with
  | nil => exact ⟨d, hd, rfl⟩
  | cons e rest ih =>
    obtain ⟨h1, h2, h3⟩ := hex e (List.mem_cons_self _ _)
    obtain ⟨d1, hd1, hrun⟩ := exchange_keeps_pin glet c t d e hd (lt_of_le_of_lt h1 hnow) h2 h3
    obtain ⟨d2, hd2, hrest⟩ := ih d1 hd1 (fun x hx => hex x (List.mem_cons_of_mem _ hx))
    refine ⟨d2, hd2, ?_⟩
    simp only [ClientSession.exchanges, List.foldl_cons] at hrest ⊢
    rw [hrun]
    exact hrest

theorem exchange_no_refresh (glet : Duration) (c : Nat) (d : Time) (s : ClientSession)
    (e : Exchange) (hs : pinNotRefreshed c d s) (hcls : e.cls ≠ ResponseClass.pinning) :
    pinNotRefreshed c d (ClientSession.run glet s e.inputs) := by
  unfold pinNotRefreshed at hs ⊢
  rcases hs with rfl | rfl | rfl
  · by_cases hlt : e.reqTime < d
    · cases hc : e.cls with
      | pinning => exact absurd hc hcls
      | rotating =>
        simp [ClientSession.run, Exchange.inputs, ClientSession.step, onClientFrame,
          onResponse, hlt, hc]
      | neutral =>
        simp [ClientSession.run, Exchange.inputs, ClientSession.step, onClientFrame,
          onResponse, hlt, hc]
    · cases ha : e.acq with
      | failed err =>
        simp [ClientSession.run, Exchange.inputs, ClientSession.step, onClientFrame,
          acquireFresh, hlt, ha]
      | conn c' =>
        cases hc : e.cls with
        | pinning => exact absurd hc hcls
        | rotating =>
          simp [ClientSession.run, Exchange.inputs, ClientSession.step, onClientFrame,
            acquireFresh, onResponse, hlt, ha, hc]
        | neutral =>
          simp [ClientSession.run, Exchange.inputs, ClientSession.step, onClientFrame,
            acquireFresh, onResponse, hlt, ha, hc]
  · cases ha : e.acq with
    | failed err =>
      simp [ClientSession.run, Exchange.inputs, ClientSession.step, onClientFrame,
        acquireFresh, ha]
    | conn c' =>
      cases hc : e.cls with
      | pinning => exact absurd hc hcls
      | rotating =>
        simp [ClientSession.run, Exchange.inputs, ClientSession.step, onClientFrame,
          acquireFresh, onResponse, ha, hc]
      | neutral =>
        simp [ClientSession.run, Exchange.inputs, ClientSession.step, onClientFrame,
          acquireFresh, onResponse, ha, hc]
  · simp [ClientSession.run, Exchange.inputs, ClientSession.step]

theorem exchanges_no_refresh (glet : Duration) (c : Nat) (d : Time) (exs : List Exchange)
    (s : ClientSession) (hs : pinNotRefreshed c d s)
    (hex : ∀ e ∈ exs, e.cls ≠ ResponseClass.pinning) :
    pinNotRefreshed c d (ClientSession.exchanges glet s exs) := by
  induction exs generalizing s with
  | nil => exact hs
  | cons e rest ih =>
    simp only [ClientSession.exchanges, List.foldl_cons]
    exact ih _ (exchange_no_refresh glet c d s e hs (hex e (List.mem_cons_self _ _)))
      (fun x hx => hex x (List.mem_cons_of_mem _ hx))

theorem step_pinning_response (glet : Duration) (s : ClientSession) (c : Nat) (t : Time)
    (hs : s.state = SessionState.AwaitingResponse) (hb : s.borrowed = some c) :
    (ClientSession.step glet s (SessionInput.response t ResponseClass.pinning)).1
      = ⟨SessionState.Pinned, some c, some (c, t + glet)⟩ := by
  simp [ClientSession.step, hs, hb, onResponse]

/-- C7, as stated, fails: with GetLastErrorTimeout = 10, a session sees a pin-triggering
response on connection 1 at time 0 (pin deadline 10), sends a request at time 1, which is
routed to connection 1, and gets at time 2 a response that rotates affinity away; its next
request, at time 3, before the deadline and with connection 1 never failed, is routed by a
fresh Acquire to connection 2. -/
theorem pin_rotated_counterexample :
    (ClientSession.step 10 ⟨SessionState.AwaitingResponse, some 1, none⟩
        (SessionInput.response 0 ResponseClass.pinning)).1
      = ⟨SessionState.Pinned, some 1, some (1, 0 + 10)⟩ ∧
    (3 : Time) < 0 + 10 ∧
    ClientSession.step 10
        (ClientSession.exchanges 10
          (ClientSession.step 10 ⟨SessionState.AwaitingResponse, some 1, none⟩
            (SessionInput.response 0 ResponseClass.pinning)).1
          [⟨1, AcquireResult.conn 2, 2, ResponseClass.rotating⟩])
        (SessionInput.clientFrame 3 (AcquireResult.conn 2))
      = (⟨SessionState.Forwarding, some 2, none⟩, [SessionAction.acquired 2]) := by
  decide

/-- C7, amended: after a session in AwaitingResponse on connection `c` relays a
pin-triggering response at time `t`, and then any number of exchanges, the next request, at
time `now`: (1) is routed to `c` and to nothing else, without asking the pool, when
`now < t + GetLastErrorTimeout`, the earlier requests arrived no later than `now`, the
responses no earlier than `t`, and no response rotated affinity away; (2) when
`t + GetLastErrorTimeout ≤ now`, no response in between was pin-triggering and the session
is still open, leaves the session without a pin and is routed by a fresh Acquire: to the
connection Acquire returns, never by reuse of a pin. -/
theorem pinned_session_routing (glet : Duration) (s : ClientSession) (c : Nat) (t : Time)
    (exs : List Exchange) (now : Time) (acq : AcquireResult)
    (hs : s.state = SessionState.AwaitingResponse) (hb : s.borrowed = some c) :
    (now < t + glet →
      (∀ e ∈ exs, e.reqTime ≤ now ∧ t ≤ e.respTime ∧ e.cls ≠ ResponseClass.rotating) →
      (ClientSession.step glet
        (ClientSession.exchanges glet
          (ClientSession.step glet s (SessionInput.response t ResponseClass.pinning)).1 exs)
        (SessionInput.clientFrame now acq)).2 = [SessionAction.reusePinned c] ∧
      (ClientSession.step glet
        (ClientSession.exchanges glet
          (ClientSession.step glet s (SessionInput.response t ResponseClass.pinning)).1 exs)
        (SessionInput.clientFrame now acq)).1.borrowed = some c) ∧
    (t + glet ≤ now →
      (∀ e ∈ exs, e.cls ≠ ResponseClass.pinning) →
      (ClientSession.exchanges glet
          (ClientSession.step glet s (SessionInput.response t ResponseClass.pinning)).1
          exs).state ≠ SessionState.Closed →
      (ClientSession.step glet
        (ClientSession.exchanges glet
          (ClientSession.step glet s (SessionInput.response t ResponseClass.pinning)).1 exs)
        (SessionInput.clientFrame now acq)).1.pin = none ∧
      (∀ x, SessionAction.reusePinned x ∉ (ClientSession.step glet
        (ClientSession.exchanges glet
          (ClientSession.step glet s (SessionInput.response t ResponseClass.pinning)).1 exs)
        (SessionInput.clientFrame now acq)).2) ∧
      (∀ c', acq = AcquireResult.conn c' →
        SessionAction.acquired c' ∈ (ClientSession.step glet
          (ClientSession.exchanges glet
            (ClientSession.step glet s (SessionInput.response t ResponseClass.pinning)).1 exs)
          (SessionInput.clientFrame now acq)).2 ∧
        (ClientSession.step glet
          (ClientSession.exchanges glet
            (ClientSession.step glet s (SessionInput.response t ResponseClass.pinning)).1 exs)
          (SessionInput.clientFrame now acq)).1.borrowed = some c')) := by
  rw [step_pinning_response glet s c t hs hb]
  refine ⟨fun hnow hex => ?_, fun hnow hex hopen => ?_⟩
  · obtain ⟨d, hd, hrun⟩ := exchanges_keep_pin glet c t now hnow exs (t + glet) (le_refl _) hex
    rw [hrun]
    have hlt : now < d := lt_of_lt_of_le hnow hd
    simp [ClientSession.step, onClientFrame, hlt]
  · have hinv := exchanges_no_refresh glet c (t + glet) exs _ (Or.inl rfl) hex
    rcases hinv with h | h | h
    · rw [h]
      have hlt : ¬ now < t + glet := not_lt.2 hnow
      cases acq <;>
        simp [ClientSession.step, onClientFrame, acquireFresh, releaseHeld, hlt]
    · rw [h]
      cases acq <;> simp [ClientSession.step, onClientFrame, acquireFresh, releaseHeld]
    · rw [h] at hopen
      exact absurd rfl hopen

theorem pinned_session_routing_witness :
    ((ClientSession.step 10
        (ClientSession.exchanges 10
          (ClientSession.step 10 ⟨SessionState.AwaitingResponse, some 1, none⟩
            (SessionInput.response 0 ResponseClass.pinning)).1
          [⟨1, AcquireResult.conn 2, 2, ResponseClass.neutral⟩])
        (SessionInput.clientFrame 3 (AcquireResult.conn 2))).2 = [SessionAction.reusePinned 1] ∧
      (ClientSession.step 10
        (ClientSession.exchanges 10
          (ClientSession.step 10 ⟨SessionState.AwaitingResponse, some 1, none⟩
            (SessionInput.response 0 ResponseClass.pinning)).1
          [⟨1, AcquireResult.conn 2, 2, ResponseClass.neutral⟩])
        (SessionInput.clientFrame 3 (AcquireResult.conn 2))).1.borrowed = some 1) ∧
    (ClientSession.step 10
        (ClientSession.exchanges 10
          (ClientSession.step 10 ⟨SessionState.AwaitingResponse, some 1, none⟩
            (SessionInput.response 0 ResponseClass.pinning)).1
          [⟨1, AcquireResult.conn 2, 2, ResponseClass.neutral⟩])
        (SessionInput.clientFrame 12 (AcquireResult.conn 2))).1.pin = none :=
  ⟨(pinned_session_routing 10 ⟨SessionState.AwaitingResponse, some 1, none⟩ 1 0
      [⟨1, AcquireResult.conn 2, 2, ResponseClass.neutral⟩] 3 (AcquireResult.conn 2)
      rfl rfl).1 (by decide) (by decide),
   ((pinned_session_routing 10 ⟨SessionState.AwaitingResponse, some 1, none⟩ 1 0
      [⟨1, AcquireResult.conn 2, 2, ResponseClass.neutral⟩] 12 (AcquireResult.conn 2)
      rfl rfl).2 (by decide) (by decide) (by decide)).1⟩

end Dvara
